import Mathlib

/-!
Verification of the diversey-com-documentation pipeline (src/main.py and
src/pdf_validator.py) against its natural-language specification.

The Python source is shallowly embedded: pure helpers become Lean functions
over `String` / `List Char`; the filesystem is an explicit map
`String → Option content`; the single HTTP call made by `download_pdf` is an
oracle argument describing what the network returns.  Strings are treated at
character level, which coincides with Python semantics on the ASCII inputs the
program manipulates (Python's `\w` and `str.lower` are Unicode-aware; the
embedding models their ASCII fragment, noted where relevant).
-/

/-! ## Character and string primitives (Python `str` / `re` fragment) -/

/-- ASCII whitespace stripped by Python's `str.strip()`. -/
def pyWhitespace (c : Char) : Bool :=
  c == ' ' || c == '\t' || c == '\n' || c == '\x0d' || c == '\x0b' || c == '\x0c'

/-- Python regex `\w` (ASCII fragment): letters, digits, underscore. -/
def isWordChar (c : Char) : Bool :=
  c.isAlphanum || c == '_'

/-- A character NOT matched by the substitution class `[^\w\.\-]` in
`url_to_filename`, i.e. a character that survives sanitization. -/
def isSafeChar (c : Char) : Bool :=
  isWordChar c || c == '.' || c == '-'

/-- Python `str.strip()` (ASCII whitespace fragment). -/
def pyStrip (s : String) : String :=
  String.mk (((s.data.dropWhile pyWhitespace).reverse.dropWhile pyWhitespace).reverse)

/-- Python `str.endswith(suffix)`. -/
def strEndsWith (s suffix : String) : Bool :=
  List.isSuffixOf suffix.data s.data

/-- Python `str.startswith(pre)`. -/
def strStartsWith (s pre : String) : Bool :=
  List.isPrefixOf pre.data s.data

/-- Occurrence of `needle` inside `hay` (Python's `in` operator on `str`). -/
def listContainsSub (needle : List Char) : List Char → Bool
  | [] => needle.isEmpty
  | c :: rest => List.isPrefixOf needle (c :: rest) || listContainsSub needle rest

/-- Python `needle in hay` for strings. -/
def strContains (hay needle : String) : Bool :=
  listContainsSub needle.data hay.data

/-- Python `str.lower()` (ASCII fragment). -/
def strLower (s : String) : String :=
  String.mk (s.data.map Char.toLower)

/-! ## `url_to_filename` (src/main.py lines 409-430)

`re.sub(r"[^\w\.\-]+", "_", filename)` replaces each maximal run of
characters outside the class with a single underscore.  `pySubRuns` is the
direct embedding of that substitution: the flag records whether the previous
character was part of a run already replaced by an underscore. -/

def pySubRuns : List Char → Bool → List Char
  | [], _ => []
  | c :: rest, inRun =>
    if isSafeChar c then c :: pySubRuns rest false
    else if inRun then pySubRuns rest true
    else '_' :: pySubRuns rest true

/-- `re.search(r"content=(.*)", url)`: locate the first occurrence of the
literal `content=` and return the characters following it (the capture group
is cut at the first newline by the caller, since `.` does not match `\n`). -/
def findContentValue : List Char → Option (List Char)
  | [] => none
  | c :: rest =>
    if List.isPrefixOf "content=".data (c :: rest) then some ((c :: rest).drop 8)
    else findContentValue rest

/-- Embedding of `url_to_filename` (src/main.py): value of `content=` up to
the first `&` (regex `.` stops at a newline), stripped, sanitized by
`re.sub(r"[^\w\.\-]+", "_", ·)`, placeholder when `content=` is absent,
`.pdf` appended when the lower-cased name does not already end in `.pdf`. -/
def url_to_filename (url : String) : String :=
  let safe_name :=
    match findContentValue url.data with
    | some tailChars =>
      let captured := tailChars.takeWhile (fun c => c != '\n')
      let value := captured.takeWhile (fun c => c != '&')
      let stripped := pyStrip (String.mk value)
      String.mk (pySubRuns stripped.data false)
    | none => "downloaded_file"
  if strEndsWith (strLower safe_name) ".pdf" then safe_name else safe_name ++ ".pdf"

/-- The filename function exactly as the claim words it: every character
outside `[A-Za-z0-9._-]` is replaced with one underscore EACH (no collapsing
of runs).  Used to compare the claim against the source behavior. -/
def url_to_filename_claimed (url : String) : String :=
  let safe_name :=
    match findContentValue url.data with
    | some tailChars =>
      let captured := tailChars.takeWhile (fun c => c != '\n')
      let value := captured.takeWhile (fun c => c != '&')
      let stripped := pyStrip (String.mk value)
      String.mk (stripped.data.map fun c => if isSafeChar c then c else '_')
    | none => "downloaded_file"
  if strEndsWith (strLower safe_name) ".pdf" then safe_name else safe_name ++ ".pdf"

/-- Amended sanitization, following the corrected spec wording: each maximal
run of characters outside the safe class becomes a single underscore (the
`dropWhile` consumes the remainder of the run). -/
def sanitizeRuns : List Char → List Char
  | [] => []
  | c :: rest =>
    if isSafeChar c then c :: sanitizeRuns rest
    else '_' :: sanitizeRuns (rest.dropWhile fun d => !(isSafeChar d))
termination_by s => s.length
decreasing_by
  all_goals simp_wf
  all_goals
    (first
      | omega
      | (have h := (List.dropWhile_suffix (l := rest) (fun d => !(isSafeChar d))).length_le
         omega))

/-- The filename function as the amended claim words it (run-collapsing
substitution, otherwise identical pipeline). -/
def url_to_filename_amended (url : String) : String :=
  let safe_name :=
    match findContentValue url.data with
    | some tailChars =>
      let captured := tailChars.takeWhile (fun c => c != '\n')
      let value := captured.takeWhile (fun c => c != '&')
      let stripped := pyStrip (String.mk value)
      String.mk (sanitizeRuns stripped.data)
    | none => "downloaded_file"
  if strEndsWith (strLower safe_name) ".pdf" then safe_name else safe_name ++ ".pdf"

/-! ## JSON values and Python dynamic-attribute semantics

`extract_pdf_document_ids` receives the result of `json.loads` and navigates
it with `.get(...)`, iteration, indexing and `.endswith(...)`.  Those
operations are only defined on some runtime types; on the others Python
raises, and nothing in the function catches those errors (only
`json.JSONDecodeError` is caught).  The embedding makes this explicit with an
error monad over a JSON value type. -/

inductive JValue where
  | null
  | bool (b : Bool)
  | num (n : Int)
  | str (s : String)
  | arr (elems : List JValue)
  | obj (fields : List (String × JValue))

inductive PyErr where
  | attributeError
  | typeError
  | indexError
  | keyError
deriving DecidableEq, Repr

/-- Python `v.get(key, default)`: defined on `dict` only; every other runtime
type has no `get` attribute and raises `AttributeError`. -/
def pyGet (v : JValue) (key : String) (default : JValue) : Except PyErr JValue :=
  match v with
  | .obj fields => .ok ((fields.lookup key).getD default)
  | _ => .error .attributeError

/-- Python truthiness of a JSON value (`if data_row` / `if v`). -/
def pyTruthy : JValue → Bool
  | .null => false
  | .bool b => b
  | .num n => n != 0
  | .str s => s != ""
  | .arr elems => !elems.isEmpty
  | .obj fields => !fields.isEmpty

/-- Python `len(v)`: defined on `str`, `list`, `dict`; `TypeError` otherwise. -/
def pyLen : JValue → Except PyErr Nat
  | .str s => .ok s.length
  | .arr elems => .ok elems.length
  | .obj fields => .ok fields.length
  | _ => .error .typeError

/-- Python `for x in v`: lists iterate elements, strings iterate one-character
strings, dicts iterate keys; other types raise `TypeError`. -/
def pyIter : JValue → Except PyErr (List JValue)
  | .arr elems => .ok elems
  | .str s => .ok (s.data.map fun c => .str (String.mk [c]))
  | .obj fields => .ok (fields.map fun kv => .str kv.1)
  | _ => .error .typeError

/-- Python `v[0]`: head of a list, first character of a string; on a dict it
looks up the integer key `0`, absent from a string-keyed JSON object
(`KeyError`); `TypeError` on the rest. -/
def pyIndexZero : JValue → Except PyErr JValue
  | .arr [] => .error .indexError
  | .arr (x :: _) => .ok x
  | .str s =>
    match s.data with
    | [] => .error .indexError
    | c :: _ => .ok (.str (String.mk [c]))
  | .obj _ => .error .keyError
  | _ => .error .typeError

/-! ## `extract_pdf_document_ids` (src/main.py lines 353-392) -/

/-- One iteration of the extraction loop:
`if data_row and len(data_row) > 0: document_id = data_row[0];
if document_id.endswith("_PDF"): append`.  `endswith` exists on `str` only
(`AttributeError` otherwise). -/
def extractRow (row : JValue) : Except PyErr (Option String) :=
  if pyTruthy row then
    match pyLen row with
    | .error e => .error e
    | .ok n =>
      if 0 < n then
        match pyIndexZero row with
        | .error e => .error e
        | .ok (.str s) => .ok (if strEndsWith s "_PDF" then some s else none)
        | .ok _ => .error .attributeError
      else .ok none
  else .ok none

/-- The `for data_row in record_data` loop, in row order; a raised error
aborts the whole loop (nothing catches it in the source). -/
def extractLoop : List JValue → Except PyErr (List String)
  | [] => .ok []
  | row :: rest =>
    match extractRow row with
    | .error e => .error e
    | .ok none => extractLoop rest
    | .ok (some s) =>
      match extractLoop rest with
      | .error e => .error e
      | .ok tl => .ok (s :: tl)

/-- Embedding of `extract_pdf_document_ids`.  The argument is the result of
`json.loads(raw_json_input)`: `none` models a `json.JSONDecodeError`, which
the source catches, returning `[]`.  The body is
`api_response.get("data", {}).get("Data", [])` followed by the row loop;
errors raised there escape the function. -/
def extract_pdf_document_ids (parsed : Option JValue) : Except PyErr (List String) :=
  match parsed with
  | none => .ok []
  | some api_response =>
    match pyGet api_response "data" (.obj []) with
    | .error e => .error e
    | .ok dataVal =>
      match pyGet dataVal "Data" (.arr []) with
      | .error e => .error e
      | .ok recordData =>
        match pyIter recordData with
        | .error e => .error e
        | .ok rows => extractLoop rows

/-- A catalog payload shaped as the spec describes it: an object with a
`data.Data` list of rows, each row a list of string fields. -/
def catalogPayload (rows : List (List String)) : JValue :=
  .obj [("data", .obj [("Data", .arr (rows.map fun r => .arr (r.map .str)))])]

/-- The extraction result exactly as the claim words it: the first field of
each non-empty row whose first field ends with `_PDF`, in row order, with
duplicates kept. -/
def claimedExtract (rows : List (List String)) : List String :=
  rows.filterMap fun r =>
    match r with
    | [] => none
    | id :: _ => if strEndsWith id "_PDF" then some id else none

theorem extractLoop_strRows (rows : List (List String)) :
    extractLoop (rows.map fun r => .arr (r.map .str)) = .ok (claimedExtract rows) := by
  induction rows with
  | nil => rfl
  | cons r rest ih =>
    cases r with
    | nil =>
      simpa [extractLoop, extractRow, pyTruthy, claimedExtract] using ih
    | cons id tl =>
      cases h : strEndsWith id "_PDF" <;>
        simp [extractLoop, extractRow, pyTruthy, pyLen, pyIndexZero, h, ih,
          claimedExtract]

/-- C1: for every catalog payload whose `data.Data` value is a list of rows of
string fields, `extract_pdf_document_ids` returns exactly the first field of
each non-empty row whose first field ends in `_PDF`, in row order and without
deduplication; in particular the payload
`{"data":{"Data":[["ABC_PDF"],["XYZ_DOC"],["DEF_PDF"]]}}` yields
`["ABC_PDF", "DEF_PDF"]`. -/
theorem extract_pdf_document_ids_correct (rows : List (List String)) :
    extract_pdf_document_ids (some (catalogPayload rows)) = .ok (claimedExtract rows) ∧
    extract_pdf_document_ids (some (catalogPayload [["ABC_PDF"], ["XYZ_DOC"], ["DEF_PDF"]])) =
      .ok ["ABC_PDF", "DEF_PDF"] := by
  constructor
  · simp [extract_pdf_document_ids, catalogPayload, pyGet, List.lookup, pyIter,
      extractLoop_strRows]
  · rfl

/-- C6 counterexample: the payload `{"data": 5}` is parseable JSON whose
`data.Data` path is malformed (`data` present but not an object); the source
raises `AttributeError` (`(5).get` does not exist) instead of returning the
empty list. -/
theorem extract_pdf_document_ids_raises_cex :
    extract_pdf_document_ids (some (.obj [("data", .num 5)])) = .error .attributeError ∧
    extract_pdf_document_ids (some (.obj [("data", .num 5)])) ≠ .ok ([] : List String) := by
  refine ⟨rfl, fun h => ?_⟩
  have h2 : (Except.error .attributeError : Except PyErr (List String)) = .ok [] := h
  exact Except.noConfusion h2

/-- C6 amended: unparseable JSON yields `[]`; an absent `data` key yields `[]`;
a `data` object lacking `Data` yields `[]`; but a present non-object `data`
raises (see the counterexample) rather than returning `[]`. -/
theorem extract_pdf_document_ids_soft_cases :
    extract_pdf_document_ids none = .ok [] ∧
    (∀ fields : List (String × JValue), fields.lookup "data" = none →
      extract_pdf_document_ids (some (.obj fields)) = .ok []) ∧
    (∀ fields inner : List (String × JValue),
      fields.lookup "data" = some (.obj inner) → inner.lookup "Data" = none →
      extract_pdf_document_ids (some (.obj fields)) = .ok []) := by
  refine ⟨rfl, ?_, ?_⟩
  · intro fields h
    simp [extract_pdf_document_ids, pyGet, h, pyIter, extractLoop]
  · intro fields inner h1 h2
    simp [extract_pdf_document_ids, pyGet, h1, h2, pyIter, extractLoop]

/-- Witness for the amended C6 theorem at concrete payloads. -/
theorem extract_pdf_document_ids_soft_cases_w :
    extract_pdf_document_ids (some (.obj [("other", .num 1)])) = .ok [] ∧
    extract_pdf_document_ids (some (.obj [("data", .obj [("X", .null)])])) = .ok [] :=
  ⟨extract_pdf_document_ids_soft_cases.2.1 [("other", .num 1)] rfl,
   extract_pdf_document_ids_soft_cases.2.2 [("data", .obj [("X", .null)])] [("X", .null)] rfl rfl⟩

theorem pySubRuns_true_dropRun (l : List Char) :
    pySubRuns l true = pySubRuns (l.dropWhile fun d => !(isSafeChar d)) false := by
  induction l with
  | nil => rfl
  | cons c rest ih =>
    by_cases h : isSafeChar c
    · simp [pySubRuns, h, List.dropWhile_cons]
    · simp [pySubRuns, h, List.dropWhile_cons, ih]

theorem pySubRuns_eq_sanitizeRuns (l : List Char) :
    pySubRuns l false = sanitizeRuns l := by
  induction l using sanitizeRuns.induct with
  | case1 => simp [pySubRuns, sanitizeRuns]
  | case2 c rest h ih => simp [pySubRuns, sanitizeRuns, h, ih]
  | case3 c rest h ih =>
    simp [pySubRuns, sanitizeRuns, h, pySubRuns_true_dropRun, ih]

/-- C2 counterexample: on `"content=a  b"` (two consecutive spaces) the source
collapses the whole run into a single underscore, producing `"a_b.pdf"`,
whereas the claimed per-character replacement would produce `"a__b.pdf"`. -/
theorem url_to_filename_cex :
    url_to_filename "content=a  b" = "a_b.pdf" ∧
    url_to_filename_claimed "content=a  b" = "a__b.pdf" ∧
    url_to_filename "content=a  b" ≠ url_to_filename_claimed "content=a  b" := by
  refine ⟨by decide, by decide, by decide⟩

/-- C2 amended: `url_to_filename` equals the amended specification (value of
`content=` up to the next `&`, stripped, each maximal run of characters
outside `[A-Za-z0-9._-]` replaced by a single underscore, fixed placeholder
when `content=` is absent, and `.pdf` appended iff not already the suffix
under a case-insensitive, case-preserving check); moreover a URL without
`content=` maps to `"downloaded_file.pdf"`, and every result ends in `.pdf`
case-insensitively. -/
theorem url_to_filename_amended_correct (url : String) :
    url_to_filename url = url_to_filename_amended url ∧
    (findContentValue url.data = none → url_to_filename url = "downloaded_file.pdf") ∧
    strEndsWith (strLower (url_to_filename url)) ".pdf" = true := by
  refine ⟨?_, ?_, ?_⟩
  · simp only [url_to_filename, url_to_filename_amended]
    cases hc : findContentValue url.data with
    | none => rfl
    | some tailChars => simp only [pySubRuns_eq_sanitizeRuns]
  · intro h
    simp only [url_to_filename, h]
    decide
  · simp only [url_to_filename]
    set n : String :=
      (match findContentValue url.data with
      | some tailChars =>
        let captured := tailChars.takeWhile (fun c => c != '\n')
        let value := captured.takeWhile (fun c => c != '&')
        let stripped := pyStrip (String.mk value)
        String.mk (pySubRuns stripped.data false)
      | none => "downloaded_file") with hn
    by_cases h : strEndsWith (strLower n) ".pdf" = true
    · rw [if_pos h]; exact h
    · rw [if_neg h]
      unfold strEndsWith strLower
      rw [String.data_append]
      rw [List.map_append]
      rw [List.isSuffixOf_iff_suffix]
      have : (".pdf".data.map Char.toLower) = ".pdf".data := by decide
      calc ".pdf".data <:+ ".pdf".data.map Char.toLower := by rw [this]
        _ <:+ n.data.map Char.toLower ++ ".pdf".data.map Char.toLower :=
          List.suffix_append _ _

/-- Witness for the amended C2 theorem: a URL without `content=` yields the
placeholder name. -/
theorem url_to_filename_amended_correct_w :
    findContentValue "https://host/x".data = none ∧
    url_to_filename "https://host/x" = "downloaded_file.pdf" :=
  ⟨rfl, (url_to_filename_amended_correct "https://host/x").2.1 rfl⟩

/-! ## `download_pdf` (src/main.py lines 240-347)

The filesystem is a map from paths to file contents; the one streamed GET the
function may issue is described by an oracle value: either the request itself
raises (timeout or other transport error), or a response arrives with a
status, a `Content-Type` header and a chunked body whose stream either
completes or raises partway (requests can raise while `iter_content` runs).
`World.requests` counts issued network requests. -/

def pdf_base_url : String :=
  "https://sds.diversey.com/MyDocuments/DownloadSingleFile?content="

/-- `os.path.join` (POSIX, for the relative second component produced by
`url_to_filename`; an absolute second component replaces the first). -/
def os_path_join (d f : String) : String :=
  if strStartsWith f "/" then f
  else if d = "" then f
  else if strEndsWith d "/" then d ++ f
  else d ++ "/" ++ f

/-- The destination path computed by `download_pdf`:
`os.path.join(destination_directory, url_to_filename(pdf_base_url + pdf_id))`. -/
def dlPath (pdf_id destination_directory : String) : String :=
  os_path_join destination_directory (url_to_filename (pdf_base_url ++ pdf_id))

/-- Pointwise filesystem update (create, overwrite or delete one path). -/
def fsUpdate {α : Type} (fs : String → Option α) (p : String) (v : Option α) :
    String → Option α :=
  fun q => if q = p then v else fs q

inductive StreamEnd where
  | done
  | midError (isTimeout : Bool)
deriving DecidableEq, Repr

inductive HttpResponse where
  | failure (isTimeout : Bool)
  | response (status : Nat) (contentType : String) (chunks : List String)
      (streamEnd : StreamEnd)

/-- Observable outcome of one `download_pdf` call, one per log/return branch
of the source. -/
inductive DownloadOutcome where
  | skipped
  | networkError
  | timeoutError
  | authDenied
  | unexpectedContentType
  | emptyDownload
  | downloaded (bytes : Nat)
deriving DecidableEq, Repr

structure World where
  fs : String → Option String
  requests : Nat

/-- Embedding of `download_pdf`.  Mirrors the source branch for branch:
existing file → skip before any request; `raise_for_status` on status ≥ 400;
content-type checked by SUBSTRING (`"application/pdf" not in header`);
login/denied markers checked on the decoded body; otherwise the body is
streamed chunkwise into the file (`if chunk:` skips empty chunks), the file
having been created by `open(..., "wb")` before any byte arrives; a zero-byte
completed download is removed; an error raised mid-stream propagates to the
outer `except`, which logs but does NOT delete the partial file. -/
def download_pdf (pdf_id destination_directory : String) (w : World)
    (net : HttpResponse) : World × DownloadOutcome :=
  let full_path := dlPath pdf_id destination_directory
  if (w.fs full_path).isSome then (w, .skipped)
  else
    let w1 : World := { w with requests := w.requests + 1 }
    match net with
    | .failure isTimeout => (w1, if isTimeout then .timeoutError else .networkError)
    | .response status contentType chunks streamEnd =>
      if 400 ≤ status then (w1, .networkError)
      else if !(strContains contentType "application/pdf") then
        match streamEnd with
        | .midError isTimeout =>
          (w1, if isTimeout then .timeoutError else .networkError)
        | .done =>
          let html_content := String.join chunks
          if strContains html_content "Login" ||
              strContains (strLower html_content) "access denied" then
            (w1, .authDenied)
          else (w1, .unexpectedContentType)
      else
        let written := String.join (chunks.filter fun c => c != "")
        match streamEnd with
        | .midError isTimeout =>
          ({ w1 with fs := fsUpdate w1.fs full_path (some written) },
            if isTimeout then .timeoutError else .networkError)
        | .done =>
          if written.length = 0 then
            ({ w1 with fs := fsUpdate w1.fs full_path none }, .emptyDownload)
          else
            ({ w1 with fs := fsUpdate w1.fs full_path (some written) },
              .downloaded written.length)

/-- C3: when the computed destination file already exists, `download_pdf`
returns before issuing any network request, leaving the world (filesystem and
request count) unchanged; in consequence a second call with the target still
present is again a request-free no-op. -/
theorem download_pdf_skips_existing (pdf_id dir : String) (w : World)
    (net : HttpResponse) (h : (w.fs (dlPath pdf_id dir)).isSome = true) :
    download_pdf pdf_id dir w net = (w, .skipped) ∧
    (∀ net2, download_pdf pdf_id dir (download_pdf pdf_id dir w net).1 net2 =
      (w, .skipped)) := by
  have h1 : download_pdf pdf_id dir w net = (w, .skipped) := by
    simp [download_pdf, h]
  exact ⟨h1, fun net2 => by rw [h1]; simp [download_pdf, h]⟩

def w3 : World :=
  ⟨fun q => if q = dlPath "A_PDF" "PDFs" then some "x" else none, 0⟩

/-- Witness for C3 at a concrete world whose destination file exists. -/
theorem download_pdf_skips_existing_w :
    download_pdf "A_PDF" "PDFs" w3 (.failure false) = (w3, .skipped) :=
  (download_pdf_skips_existing "A_PDF" "PDFs" w3 (.failure false) (by simp [w3])).1

def emptyWorld : World := ⟨fun _ => none, 0⟩

/-- C8: a download that reaches the streaming phase and completes with zero
bytes written removes the just-created empty file: afterwards no file is
present at the destination, and the empty-download case is reported. -/
theorem download_pdf_zero_byte_guard (pdf_id dir : String) (w : World)
    (st : Nat) (ct : String) (chunks : List String)
    (h0 : w.fs (dlPath pdf_id dir) = none) (hst : ¬ 400 ≤ st)
    (hct : strContains ct "application/pdf" = true)
    (hz : (String.join (chunks.filter fun c => c != "")).length = 0) :
    (download_pdf pdf_id dir w (.response st ct chunks .done)).1.fs
      (dlPath pdf_id dir) = none ∧
    (download_pdf pdf_id dir w (.response st ct chunks .done)).2 =
      .emptyDownload := by
  constructor <;> simp [download_pdf, h0, hst, hct, hz, fsUpdate]

/-- Witness for C8: a completed response whose only chunk is empty. -/
theorem download_pdf_zero_byte_guard_w :
    (download_pdf "A_PDF" "PDFs" emptyWorld
        (.response 200 "application/pdf" [""] .done)).1.fs
      (dlPath "A_PDF" "PDFs") = none ∧
    (download_pdf "A_PDF" "PDFs" emptyWorld
        (.response 200 "application/pdf" [""] .done)).2 = .emptyDownload :=
  download_pdf_zero_byte_guard "A_PDF" "PDFs" emptyWorld 200 "application/pdf" [""]
    rfl (by omega) rfl rfl

/-! ## `validate_pdf_file` / `remove_system_file` / `process_pdf_file`
(src/pdf_validator.py)

A stored file is abstracted by how the external PDF engine (`fitz.open`)
behaves on it: it opens and reports a page count, it raises a `RuntimeError`
(the engine's corrupt-document error), or it raises some other unexpected
exception.  The validator's observable result is the branch taken (one print
per branch in the source); the source's boolean return is `true` exactly on
the valid branch. -/

inductive StoredFile where
  | pdf (pageCount : Nat)
  | corruptFile
  | weirdFile
deriving DecidableEq, Repr

inductive ValidationOutcome where
  | valid
  | invalidNoPages
  | corrupt
  | notFound
  | unexpectedError
deriving DecidableEq, Repr

/-- Embedding of `validate_pdf_file`: every branch of the source's
`try/except RuntimeError/except FileNotFoundError/except Exception` ladder
returns an outcome; no exception escapes. -/
def validate_pdf_file (fs : String → Option StoredFile) (file_path : String) :
    ValidationOutcome :=
  match fs file_path with
  | none => .notFound
  | some (.pdf pageCount) => if pageCount = 0 then .invalidNoPages else .valid
  | some .corruptFile => .corrupt
  | some .weirdFile => .unexpectedError

/-- Embedding of `remove_system_file`: delete when the path exists (returning
`true`), report failure when it does not.  OS-level permission failures are
external nondeterminism not modelled by the map-based filesystem. -/
def remove_system_file (fs : String → Option StoredFile) (system_path : String) :
    (String → Option StoredFile) × Bool :=
  if (fs system_path).isSome then (fsUpdate fs system_path none, true)
  else (fs, false)

/-- Embedding of `process_pdf_file` (one worker task): validate, and delete
the file exactly when validation did not return the valid outcome. -/
def process_pdf_file (fs : String → Option StoredFile) (file_path : String) :
    String → Option StoredFile :=
  if validate_pdf_file fs file_path = .valid then fs
  else (remove_system_file fs file_path).1

/-- The sweep over the discovered paths.  Workers act on disjoint paths with
no shared state, so the pool's effect on the final store is that of
processing each path once; the fold fixes one order. -/
def sweepFiles (fs : String → Option StoredFile) : List String → (String → Option StoredFile)
  | [] => fs
  | p :: rest => sweepFiles (process_pdf_file fs p) rest

theorem validate_congr {fs fs2 : String → Option StoredFile} {p : String}
    (h : fs p = fs2 p) : validate_pdf_file fs p = validate_pdf_file fs2 p := by
  unfold validate_pdf_file
  rw [h]

theorem process_pdf_file_other {fs : String → Option StoredFile} {p q : String}
    (h : q ≠ p) : process_pdf_file fs p q = fs q := by
  unfold process_pdf_file remove_system_file
  split
  · rfl
  · split
    · simp [fsUpdate, h]
    · rfl

theorem sweepFiles_not_mem {fs : String → Option StoredFile} {paths : List String}
    {q : String} (h : q ∉ paths) : sweepFiles fs paths q = fs q := by
  induction paths generalizing fs with
  | nil => rfl
  | cons p rest ih =>
    have hq : q ≠ p := fun he => h (he ▸ List.mem_cons_self p rest)
    have hr : q ∉ rest := fun hm => h (List.mem_cons_of_mem p hm)
    calc sweepFiles (process_pdf_file fs p) rest q
        = process_pdf_file fs p q := ih hr
      _ = fs q := process_pdf_file_other hq

/-- C4: over a duplicate-free list of discovered paths, the sweep deletes a
listed file exactly when the validator's outcome on it is not the valid one,
leaves listed valid files untouched, and does not touch unlisted paths. -/
theorem sweep_deletes_exactly_invalid (fs : String → Option StoredFile)
    (paths : List String) (hnd : paths.Nodup) (q : String) :
    (q ∈ paths → sweepFiles fs paths q =
      (if validate_pdf_file fs q = .valid then fs q else none)) ∧
    (q ∉ paths → sweepFiles fs paths q = fs q) := by
  induction paths generalizing fs with
  | nil => exact ⟨fun h => absurd h (List.not_mem_nil q), fun _ => rfl⟩
  | cons p rest ih =>
    have hpn : p ∉ rest := (List.nodup_cons.mp hnd).1
    have hrest : rest.Nodup := (List.nodup_cons.mp hnd).2
    refine ⟨fun hq => ?_, fun hq => sweepFiles_not_mem hq⟩
    rcases List.mem_cons.mp hq with he | hm
    · subst he
      have h1 : sweepFiles (process_pdf_file fs q) rest q =
          process_pdf_file fs q q := sweepFiles_not_mem hpn
      rw [show sweepFiles fs (q :: rest) q =
        sweepFiles (process_pdf_file fs q) rest q from rfl, h1]
      unfold process_pdf_file remove_system_file
      split
      · simp [*]
      · split
        · simp [fsUpdate, *]
        · rename_i hv hs
          simp only [if_neg hv]
          exact Option.not_isSome_iff_eq_none.mp hs
    · have hqp : q ≠ p := fun he => hpn (he ▸ hm)
      have h2 := ((ih (process_pdf_file fs p) hrest).1 hm)
      rw [show sweepFiles fs (p :: rest) q =
        sweepFiles (process_pdf_file fs p) rest q from rfl, h2]
      rw [validate_congr (process_pdf_file_other hqp),
        process_pdf_file_other hqp]

/-- Concrete store for the end-to-end sweep scenario: three valid files, two
corrupt ones. -/
def fsScenario : String → Option StoredFile := fun p =>
  if p = "PDFs/a.pdf" then some (.pdf 3)
  else if p = "PDFs/b.pdf" then some (.pdf 2)
  else if p = "PDFs/c.pdf" then some (.pdf 1)
  else if p = "PDFs/d.pdf" then some .corruptFile
  else if p = "PDFs/e.pdf" then some .corruptFile
  else none

def scenarioPaths : List String :=
  ["PDFs/a.pdf", "PDFs/b.pdf", "PDFs/c.pdf", "PDFs/d.pdf", "PDFs/e.pdf"]

/-- Witness for C4: after the sweep exactly the three valid files remain. -/
theorem sweep_deletes_exactly_invalid_w :
    sweepFiles fsScenario scenarioPaths "PDFs/a.pdf" = some (.pdf 3) ∧
    sweepFiles fsScenario scenarioPaths "PDFs/b.pdf" = some (.pdf 2) ∧
    sweepFiles fsScenario scenarioPaths "PDFs/c.pdf" = some (.pdf 1) ∧
    sweepFiles fsScenario scenarioPaths "PDFs/d.pdf" = none ∧
    sweepFiles fsScenario scenarioPaths "PDFs/e.pdf" = none := by
  have hnd : scenarioPaths.Nodup := by decide
  refine ⟨?_, ?_, ?_, ?_, ?_⟩ <;>
  · rw [(sweep_deletes_exactly_invalid fsScenario scenarioPaths hnd _).1 (by decide)]
    decide

/-- C5: `validate_pdf_file` maps every possible engine behaviour on every
path to an outcome (no exception escapes); the valid outcome is returned
exactly when the path exists and the document opens with at least one page,
and the missing-file, zero-page, engine-error and unexpected-error situations
map to their respective non-valid outcomes. -/
theorem validate_pdf_file_total_characterization
    (fs : String → Option StoredFile) (file_path : String) :
    (validate_pdf_file fs file_path = .valid ↔
      ∃ n, fs file_path = some (.pdf n) ∧ 0 < n) ∧
    (validate_pdf_file fs file_path = .notFound ↔ fs file_path = none) ∧
    (validate_pdf_file fs file_path = .invalidNoPages ↔
      fs file_path = some (.pdf 0)) ∧
    (validate_pdf_file fs file_path = .corrupt ↔
      fs file_path = some .corruptFile) ∧
    (validate_pdf_file fs file_path = .unexpectedError ↔
      fs file_path = some .weirdFile) := by
  unfold validate_pdf_file
  rcases h : fs file_path with _ | f
  · simp
  · cases f with
    | pdf n =>
      by_cases hn : n = 0
      · subst hn; simp
      · simp only [if_neg hn]
        refine ⟨?_, by simp, by simp [hn], by simp, by simp⟩
        simp only [true_iff]
        exact ⟨n, rfl, Nat.pos_of_ne_zero hn⟩
    | corruptFile => simp
    | weirdFile => simp

/-! ## `MAX_WORKERS` (src/pdf_validator.py line 212) -/

/-- Embedding of `MAX_WORKERS = os.cpu_count() or 4`: `os.cpu_count()` yields
the hardware parallelism or `None`; Python's `or` keeps the left operand
unless it is falsy (`None` or `0`). -/
def MAX_WORKERS (cpuCount : Option Nat) : Nat :=
  match cpuCount with
  | some n => if n = 0 then 4 else n
  | none => 4

/-- C9 counterexample: a machine reporting 2 hardware threads gets a pool of
2 workers, not `max 2 4 = 4`; the claimed floor of 4 does not exist. -/
theorem max_workers_cex :
    MAX_WORKERS (some 2) = 2 ∧ MAX_WORKERS (some 2) ≠ max 2 4 ∧
    MAX_WORKERS (some 2) < 4 :=
  ⟨rfl, by decide, by decide⟩

/-- C9 amended: the pool size equals the reported hardware parallelism
whenever it is known and nonzero, and falls back to 4 only when the report is
absent or zero; machines with fewer than 4 CPUs run with fewer than 4
workers. -/
theorem max_workers_amended :
    MAX_WORKERS none = 4 ∧ MAX_WORKERS (some 0) = 4 ∧
    ∀ n : Nat, 0 < n → MAX_WORKERS (some n) = n := by
  refine ⟨rfl, rfl, fun n hn => ?_⟩
  simp only [MAX_WORKERS]
  rw [if_neg (by omega)]

/-- Witness for the amended C9 theorem at 8 CPUs. -/
theorem max_workers_amended_w : MAX_WORKERS (some 8) = 8 :=
  max_workers_amended.2.2 8 (by omega)

/-! ## `walk_directory_and_extract_given_file_extension`
(src/pdf_validator.py lines 86-142)

The directory tree reachable from the root is modelled explicitly; `none`
models a nonexistent or unreadable root (`os.walk` swallows such errors and
yields nothing, and the function's own `except` clauses swallow anything
else, so `matched_files` stays empty).  `os.path.abspath` is modelled as
prefixing the working directory to a relative path; its `.`/`..`
normalization cannot touch the final filename component of the walk-produced
paths, which is all the suffix property depends on. -/

mutual
inductive DirTree where
  | node (files : List String) (subdirs : DirForest)
inductive DirForest where
  | leaf
  | cons (name : String) (tree : DirTree) (rest : DirForest)
end

mutual
/-- `os.walk` top-down: the pairs (directory path, filenames) in visit
order. -/
def walkTree (curPath : String) : DirTree → List (String × List String)
  | .node files subdirs => (curPath, files) :: walkForest curPath subdirs
termination_by structural t => t

def walkForest (curPath : String) : DirForest → List (String × List String)
  | .leaf => []
  | .cons name tree rest =>
    walkTree (os_path_join curPath name) tree ++ walkForest curPath rest
termination_by structural f => f
end

/-- `os.path.abspath` (cwd-prefixing fragment, see the section comment). -/
def os_path_abspath (cwd p : String) : String :=
  if strStartsWith p "/" then p else os_path_join cwd p

/-- Embedding of `walk_directory_and_extract_given_file_extension`: the
extension gets a leading dot when missing; every file name produced by the
walk that ends with the extension (case-sensitively) is collected as an
absolute path, in walk order. -/
def walk_directory_and_extract_given_file_extension
    (root : Option DirTree) (root_directory_path file_extension cwd : String) :
    List String :=
  let ext := if strStartsWith file_extension "." then file_extension
    else "." ++ file_extension
  match root with
  | none => []
  | some t =>
    ((walkTree root_directory_path t).map fun entry =>
      (entry.2.filter fun file_name => strEndsWith file_name ext).map
        fun file_name => os_path_abspath cwd (os_path_join entry.1 file_name)).flatten

theorem strEndsWith_append_left (a : String) {b suf : String}
    (h : strEndsWith b suf = true) : strEndsWith (a ++ b) suf = true := by
  unfold strEndsWith at *
  rw [List.isSuffixOf_iff_suffix] at h ⊢
  rw [String.data_append]
  exact h.trans (List.suffix_append _ _)

theorem os_path_join_endsWith {d f suf : String} (h : strEndsWith f suf = true) :
    strEndsWith (os_path_join d f) suf = true := by
  unfold os_path_join
  split
  · exact h
  · split
    · exact h
    · split
      · exact strEndsWith_append_left d h
      · exact strEndsWith_append_left (d ++ "/") h

theorem os_path_abspath_endsWith {cwd p suf : String}
    (h : strEndsWith p suf = true) :
    strEndsWith (os_path_abspath cwd p) suf = true := by
  unfold os_path_abspath
  split
  · exact h
  · exact os_path_join_endsWith h

/-- C10: the walk is total (every error path in the source returns the list
built so far); a nonexistent or unreadable root yields the empty list, and
every returned path ends with the requested extension after a leading dot has
been prepended when missing, matched case-sensitively. -/
theorem walk_directory_safe (root : Option DirTree)
    (root_directory_path file_extension cwd : String) :
    (root = none →
      walk_directory_and_extract_given_file_extension root root_directory_path
        file_extension cwd = []) ∧
    (∀ p ∈ walk_directory_and_extract_given_file_extension root
        root_directory_path file_extension cwd,
      strEndsWith p (if strStartsWith file_extension "." then file_extension
        else "." ++ file_extension) = true) := by
  constructor
  · intro h
    subst h
    rfl
  · cases root with
    | none => intro p hp; simp [walk_directory_and_extract_given_file_extension] at hp
    | some t =>
      intro p hp
      simp only [walk_directory_and_extract_given_file_extension,
        List.mem_flatten, List.mem_map] at hp
      obtain ⟨_, ⟨entry, hentry, rfl⟩, hp⟩ := hp
      obtain ⟨file_name, hfn, rfl⟩ := List.mem_map.mp hp
      have hend := (List.mem_filter.mp hfn).2
      exact os_path_abspath_endsWith (os_path_join_endsWith hend)

def tinyTree : DirTree :=
  .node ["doc.pdf", "notes.txt"] (.cons "sub" (.node ["b.pdf"] .leaf) .leaf)

/-- Witness for C10: the walk of a nonexistent root is empty, and on a small
concrete tree every returned path ends in `.pdf` (the dot having been
prepended to the bare extension). -/
theorem walk_directory_safe_w :
    walk_directory_and_extract_given_file_extension none "./PDFs" "pdf" "/c" = [] ∧
    walk_directory_and_extract_given_file_extension (some tinyTree) "./PDFs" "pdf" "/c" =
      ["/c/./PDFs/doc.pdf", "/c/./PDFs/sub/b.pdf"] ∧
    strEndsWith "/c/./PDFs/doc.pdf" ".pdf" = true := by
  refine ⟨(walk_directory_safe none "./PDFs" "pdf" "/c").1 rfl, by decide, ?_⟩
  have h := (walk_directory_safe (some tinyTree) "./PDFs" "pdf" "/c").2
    "/c/./PDFs/doc.pdf" (by decide)
  simpa using h
